import Mathlib

/-
Shallow embedding of src/script.js (class TodoApp).

Modelling conventions:
* A task object constructed in handleAddTodo is the structure Todo below.
* The in-memory array this.todos is a List Todo (front of the list = index 0).
* localStorage is reduced to its single key "todos": an Option String slot
  (none = key absent).  localStorage.setItem is modelled by replacing the slot;
  a failing setItem (quota) is modelled by the Boolean parameter saveOk of each
  mutating operation.  localStorage.removeItem sets the slot to none.
* new Date().toISOString() is modelled by a String parameter (now); all clock
  reads inside one synchronous handler yield that value.
* this.generateId() is modelled by a String parameter (newId) to the add
  handler; the generator itself (Date.now().toString(36) + random base-36
  suffix) is modelled by generateId below over its two sources of entropy.
* JSON.stringify(this.todos) is modelled by renderTodos/saveTodosStr, which
  produces exactly the compact JSON text stringify emits for an array of task
  objects (insertion-ordered keys, JSON string escaping).
* JSON.parse is modelled by parseJson: a full JSON parser (null, booleans,
  numbers kept as raw literals, strings with escapes, arrays, objects,
  whitespace).  this.todos.filter(...) on a non-array parse result throws a
  TypeError in JS; loadTodos models that as the same caught-and-rethrown
  failure path as a parse error.
* DOM access, rendering, focus, modal visibility and notification cosmetics
  are out of scope (per the specification); each mutating handler's result
  records the data-relevant observables: the new todos list, the storage slot,
  whether a storage write happened (wrote), whether an exception escaped the
  handler (threw) and whether an error notification was shown (errNotif).
* jsTrim models String.prototype.trim: it strips the common whitespace
  characters (space, tab, line feed, carriage return, vertical tab, form
  feed, no-break space) from both ends; the rarer Unicode space separators
  JS also strips occur in no claim.
-/

/-- A task object as constructed in handleAddTodo (src/script.js lines 95-101):
keys id, text, completed, createdAt, updatedAt in insertion order. -/
structure Todo where
  id : String
  text : String
  completed : Bool
  createdAt : String
  updatedAt : String
deriving Repr, DecidableEq

/-- The whitespace class stripped by String.prototype.trim (space, tab, line
feed, carriage return, vertical tab, form feed, no-break space). -/
def jsWhitespace (c : Char) : Bool :=
  c == ' ' || c == '\t' || c == '\n' || c == '\r' || c == '\x0b' ||
    c == '\x0c' || c == '\xa0'

/-- String.prototype.trim: strip whitespace from both ends. -/
def jsTrim (s : String) : String :=
  String.mk (((s.data.dropWhile jsWhitespace).reverse.dropWhile jsWhitespace).reverse)

/-- Parsed JSON values, the result type of the JSON.parse model.  Numbers are
kept as their raw literal text (their numeric value is never needed by the
code under verification beyond truthiness). -/
inductive JVal where
  | jnull : JVal
  | jbool (b : Bool) : JVal
  | jnum (raw : String) : JVal
  | jstr (s : String) : JVal
  | jarr (elems : List JVal) : JVal
  | jobj (fields : List (String × JVal)) : JVal

/-- Lower-case hex digit, as used by JSON.stringify control-character
escapes. -/
def hexDigit (n : Nat) : Char :=
  if n < 10 then Char.ofNat (48 + n) else Char.ofNat (87 + n)

/-- JSON.stringify escaping of one string character. -/
def escapeChar (c : Char) : List Char :=
  if c == '"' then ['\\', '"']
  else if c == '\\' then ['\\', '\\']
  else if c == '\n' then ['\\', 'n']
  else if c == '\r' then ['\\', 'r']
  else if c == '\t' then ['\\', 't']
  else if c == '\x08' then ['\\', 'b']
  else if c == '\x0c' then ['\\', 'f']
  else if c.toNat < 32 then
    ['\\', 'u', '0', '0', hexDigit (c.toNat / 16), hexDigit (c.toNat % 16)]
  else [c]

/-- JSON.stringify escaping of a whole string body. -/
def escapeList (s : List Char) : List Char :=
  s.flatMap escapeChar

/-- A JSON string literal: quote, escaped body, quote. -/
def renderString (s : List Char) : List Char :=
  '"' :: (escapeList s ++ ['"'])

/-- JSON rendering of a boolean. -/
def renderBool (b : Bool) : List Char :=
  if b then ['t', 'r', 'u', 'e'] else ['f', 'a', 'l', 's', 'e']

/-- JSON.stringify of one task object: keys in insertion order
(id, text, completed, createdAt, updatedAt), no whitespace. -/
def renderTodo (t : Todo) : List Char :=
  '\x7b' :: (renderString "id".data ++ ':' ::
    (renderString t.id.data ++ ',' ::
      (renderString "text".data ++ ':' ::
        (renderString t.text.data ++ ',' ::
          (renderString "completed".data ++ ':' ::
            (renderBool t.completed ++ ',' ::
              (renderString "createdAt".data ++ ':' ::
                (renderString t.createdAt.data ++ ',' ::
                  (renderString "updatedAt".data ++ ':' ::
                    (renderString t.updatedAt.data ++ ['\x7d']))))))))))

/-- The rendering of one task object after its opening brace, with a
continuation; renderTodo t ++ X = open brace :: renderTodoBody t X. -/
def renderTodoBody (t : Todo) (X : List Char) : List Char :=
  renderString "id".data ++ ':' ::
    (renderString t.id.data ++ ',' ::
      (renderString "text".data ++ ':' ::
        (renderString t.text.data ++ ',' ::
          (renderString "completed".data ++ ':' ::
            (renderBool t.completed ++ ',' ::
              (renderString "createdAt".data ++ ':' ::
                (renderString t.createdAt.data ++ ',' ::
                  (renderString "updatedAt".data ++ ':' ::
                    (renderString t.updatedAt.data ++ '\x7d' :: X)))))))))

/-- Comma-prefixed continuation of a JSON array body, ending with the closing
bracket. -/
def renderTail : List Todo → List Char
  | [] => [']']
  | t :: ts => ',' :: (renderTodo t ++ renderTail ts)

/-- JSON.stringify(this.todos): a compact JSON array of task objects. -/
def renderTodos : List Todo → List Char
  | [] => ['[', ']']
  | t :: ts => '[' :: (renderTodo t ++ renderTail ts)

/-- The string written by saveTodos (src/script.js line 376):
JSON.stringify(this.todos). -/
def saveTodosStr (todos : List Todo) : String :=
  String.mk (renderTodos todos)

/-- The structural JSON value of one task object; renderTodo is exactly the
rendering of this value. -/
def encodeTodo (t : Todo) : JVal :=
  JVal.jobj [("id", JVal.jstr t.id), ("text", JVal.jstr t.text),
    ("completed", JVal.jbool t.completed), ("createdAt", JVal.jstr t.createdAt),
    ("updatedAt", JVal.jstr t.updatedAt)]

/-- JSON whitespace skipping (space, tab, newline, carriage return — exactly
Char.isWhitespace). -/
def skipWs : List Char → List Char
  | [] => []
  | c :: cs => if c.isWhitespace then skipWs cs else c :: cs

/-- Value of one hex digit character, or none. -/
def hexVal (c : Char) : Option Nat :=
  if 48 ≤ c.toNat ∧ c.toNat ≤ 57 then some (c.toNat - 48)
  else if 97 ≤ c.toNat ∧ c.toNat ≤ 102 then some (c.toNat - 87)
  else if 65 ≤ c.toNat ∧ c.toNat ≤ 70 then some (c.toNat - 55)
  else none

/-- Meaning of a short escape character in a JSON string literal. -/
def escapeCode (e : Char) : Option Char :=
  if e == '"' then some '"'
  else if e == '\\' then some '\\'
  else if e == '/' then some '/'
  else if e == 'b' then some '\x08'
  else if e == 'f' then some '\x0c'
  else if e == 'n' then some '\n'
  else if e == 'r' then some '\r'
  else if e == 't' then some '\t'
  else none

/-- Parse the body of a JSON string literal (after the opening quote); returns
the decoded characters and the input after the closing quote.  Raw control
characters are rejected, as JSON.parse does. -/
def parseStringBody : List Char → Option (List Char × List Char)
  | [] => none
  | c :: rest =>
    if c == '"' then some ([], rest)
    else if c == '\\' then
      match rest with
      | [] => none
      | e :: rest₂ =>
        if e == 'u' then
          match rest₂ with
          | a :: b :: c₂ :: d :: rest₃ =>
            match hexVal a, hexVal b, hexVal c₂, hexVal d with
            | some va, some vb, some vc, some vd =>
              (parseStringBody rest₃).map
                (fun p => (Char.ofNat (((va * 16 + vb) * 16 + vc) * 16 + vd) :: p.1, p.2))
            | _, _, _, _ => none
          | _ => none
        else
          match escapeCode e with
          | some ch => (parseStringBody rest₂).map (fun p => (ch :: p.1, p.2))
          | none => none
    else if c.toNat < 32 then none
    else (parseStringBody rest).map (fun p => (c :: p.1, p.2))

/-- Match an expected literal character sequence at the head of the input. -/
def expectChars : List Char → List Char → Option (List Char)
  | [], cs => some cs
  | e :: es, c :: cs => if c == e then expectChars es cs else none
  | _ :: _, [] => none

/-- Integer part of a JSON number: 0, or a nonzero digit followed by digits. -/
def parseIntPart (cs : List Char) : Option (List Char × List Char) :=
  match cs with
  | c :: r =>
    if c == '0' then some (['0'], r)
    else if c.isDigit then
      some (c :: r.takeWhile Char.isDigit, r.dropWhile Char.isDigit)
    else none
  | [] => none

/-- Optional fraction part of a JSON number. -/
def parseFracPart (cs : List Char) : Option (List Char × List Char) :=
  match cs with
  | '.' :: r =>
    match r.takeWhile Char.isDigit with
    | [] => none
    | ds => some ('.' :: ds, r.dropWhile Char.isDigit)
  | _ => some ([], cs)

/-- Optional exponent part of a JSON number. -/
def parseExpPart (cs : List Char) : Option (List Char × List Char) :=
  match cs with
  | e :: r =>
    if e == 'e' || e == 'E' then
      let (sgn, r₂) :=
        match r with
        | s :: r₃ => if s == '+' || s == '-' then ([s], r₃) else ([], r)
        | [] => ([], r)
      match r₂.takeWhile Char.isDigit with
      | [] => none
      | ds => some (e :: (sgn ++ ds), r₂.dropWhile Char.isDigit)
    else some ([], cs)
  | [] => some ([], cs)

/-- Parse a JSON number literal, returning its raw text. -/
def parseNumber (cs : List Char) : Option (List Char × List Char) :=
  let (neg, cs₁) :=
    match cs with
    | '-' :: r => (['-'], r)
    | _ => ([], cs)
  match parseIntPart cs₁ with
  | none => none
  | some (ip, cs₂) =>
    match parseFracPart cs₂ with
    | none => none
    | some (fp, cs₃) =>
      match parseExpPart cs₃ with
      | none => none
      | some (ep, cs₄) => some (neg ++ (ip ++ (fp ++ ep)), cs₄)

mutual

/-- Fuel-indexed JSON value parser (the model of JSON.parse). -/
def parseValue : Nat → List Char → Option (JVal × List Char)
  | 0, _ => none
  | fuel + 1, cs =>
    match skipWs cs with
    | [] => none
    | c :: r =>
      if c == '"' then
        (parseStringBody r).map (fun p => (JVal.jstr (String.mk p.1), p.2))
      else if c == '[' then
        match skipWs r with
        | ']' :: r₂ => some (JVal.jarr [], r₂)
        | r₂ =>
          match parseValue fuel r₂ with
          | none => none
          | some (v, r₃) =>
            match parseArrayTail fuel r₃ with
            | none => none
            | some (vs, r₄) => some (JVal.jarr (v :: vs), r₄)
      else if c == '\x7b' then
        match skipWs r with
        | '\x7d' :: r₂ => some (JVal.jobj [], r₂)
        | r₂ =>
          match parseField fuel r₂ with
          | none => none
          | some (f, r₃) =>
            match parseObjTail fuel r₃ with
            | none => none
            | some (fs, r₄) => some (JVal.jobj (f :: fs), r₄)
      else if c == 't' then
        (expectChars ['r', 'u', 'e'] r).map (fun r₂ => (JVal.jbool true, r₂))
      else if c == 'f' then
        (expectChars ['a', 'l', 's', 'e'] r).map (fun r₂ => (JVal.jbool false, r₂))
      else if c == 'n' then
        (expectChars ['u', 'l', 'l'] r).map (fun r₂ => (JVal.jnull, r₂))
      else
        (parseNumber (c :: r)).map (fun p => (JVal.jnum (String.mk p.1), p.2))

/-- Parse one "key": value member of a JSON object. -/
def parseField : Nat → List Char → Option ((String × JVal) × List Char)
  | 0, _ => none
  | fuel + 1, cs =>
    match skipWs cs with
    | c :: r =>
      if c == '"' then
        match parseStringBody r with
        | none => none
        | some (k, r₂) =>
          match skipWs r₂ with
          | c₂ :: r₃ =>
            if c₂ == ':' then
              match parseValue fuel r₃ with
              | none => none
              | some (v, r₄) => some ((String.mk k, v), r₄)
            else none
          | [] => none
      else none
    | [] => none

/-- Parse the rest of a JSON array after one element: a comma-separated
continuation or the closing bracket. -/
def parseArrayTail : Nat → List Char → Option (List JVal × List Char)
  | 0, _ => none
  | fuel + 1, cs =>
    match skipWs cs with
    | c :: r =>
      if c == ']' then some ([], r)
      else if c == ',' then
        match parseValue fuel r with
        | none => none
        | some (v, r₂) =>
          match parseArrayTail fuel r₂ with
          | none => none
          | some (vs, r₃) => some (v :: vs, r₃)
      else none
    | [] => none

/-- Parse the rest of a JSON object after one member: a comma-separated
continuation or the closing brace. -/
def parseObjTail : Nat → List Char → Option (List (String × JVal) × List Char)
  | 0, _ => none
  | fuel + 1, cs =>
    match skipWs cs with
    | c :: r =>
      if c == '\x7d' then some ([], r)
      else if c == ',' then
        match parseField fuel r with
        | none => none
        | some (f, r₂) =>
          match parseObjTail fuel r₂ with
          | none => none
          | some (fs, r₃) => some (f :: fs, r₃)
      else none
    | [] => none

end

/-- JSON.parse model: parse one value, allowing surrounding whitespace only.
none models a thrown SyntaxError. -/
def parseJson (s : String) : Option JVal :=
  match parseValue (s.length + 1) s.data with
  | some (v, rest) => if skipWs rest = [] then some v else none
  | none => none

/-- Last-occurrence-wins lookup in a parsed object's member list (JSON.parse
keeps the last duplicate key). -/
def lastField (fields : List (String × JVal)) (k : String) : Option JVal :=
  match fields with
  | [] => none
  | (k₂, v) :: rest =>
    match lastField rest k with
    | some v₂ => some v₂
    | none => if k₂ == k then some v else none

/-- JS property access todo.key on a parsed value: defined members of objects;
undefined (none) otherwise. -/
def jProp : JVal → String → Option JVal
  | JVal.jobj fs, k => lastField fs k
  | _, _ => none

/-- Whether the digits of a JSON number literal denote zero (sign and exponent
cannot make a nonzero mantissa zero, ignoring double underflow which no claim
exercises). -/
def numLitIsZero (raw : String) : Bool :=
  ((raw.data.takeWhile (fun c => !(c == 'e' || c == 'E'))).filter Char.isDigit).all
    (fun c => c == '0')

/-- JS truthiness of a parsed JSON value. -/
def jTruthy : JVal → Bool
  | JVal.jnull => false
  | JVal.jbool b => b
  | JVal.jnum raw => !numLitIsZero raw
  | JVal.jstr s => !(s == "")
  | JVal.jarr _ => true
  | JVal.jobj _ => true

/-- JS typeof v === "object" for a parsed JSON value (true for objects, arrays
and null). -/
def jTypeofObject : JVal → Bool
  | JVal.jobj _ => true
  | JVal.jarr _ => true
  | JVal.jnull => true
  | _ => false

/-- Truthiness of a possibly-undefined property (undefined is falsy). -/
def optTruthy : Option JVal → Bool
  | none => false
  | some v => jTruthy v

/-- typeof p === "string" for a possibly-undefined property. -/
def optIsString : Option JVal → Bool
  | some (JVal.jstr _) => true
  | _ => false

/-- p.trim().length > 0 for a string property (short-circuit in the source
guarantees this is only reached on strings). -/
def optTrimLenPos : Option JVal → Bool
  | some (JVal.jstr s) => decide (0 < (jsTrim s).length)
  | _ => false

/-- The element validation predicate of loadTodos (src/script.js lines
389-397): todo && typeof todo === "object" && todo.id && todo.text &&
typeof todo.text === "string" && todo.text.trim().length > 0. -/
def recordFilter (v : JVal) : Bool :=
  jTruthy v && jTypeofObject v && optTruthy (jProp v "id") &&
    optTruthy (jProp v "text") && optIsString (jProp v "text") &&
    optTrimLenPos (jProp v "text")

/-- Observable outcome of loadTodos: the raw kept records, the storage slot
afterwards, and whether the method re-threw (after its internal recovery). -/
structure LoadResult where
  todos : List JVal
  slot : Option String
  threw : Bool

/-- loadTodos (src/script.js lines 383-406).  A falsy stored value (absent key
or empty string) is skipped; a JSON.parse failure, or a parse result without
.filter (any non-array), is caught: the slot is removed, the store reset to
empty, and the error re-thrown. -/
def loadTodos (slot : Option String) : LoadResult :=
  match slot with
  | none => ⟨[], none, false⟩
  | some s =>
    if s == "" then ⟨[], some s, false⟩
    else
      match parseJson s with
      | some (JVal.jarr elems) => ⟨elems.filter recordFilter, some s, false⟩
      | some _ => ⟨[], none, true⟩
      | none => ⟨[], none, true⟩

/-- One base-36 digit, as produced by Number.prototype.toString(36). -/
def base36Digit (n : Nat) : Char :=
  if n < 10 then Char.ofNat (48 + n) else Char.ofNat (87 + n)

/-- Base-36 digit accumulation for natToBase36. -/
def natToBase36Aux : Nat → Nat → List Char → List Char
  | 0, _, acc => acc
  | _ + 1, 0, acc => acc
  | fuel + 1, n, acc => natToBase36Aux fuel (n / 36) (base36Digit (n % 36) :: acc)

/-- Date.now().toString(36). -/
def natToBase36 (n : Nat) : String :=
  if n = 0 then "0" else String.mk (natToBase36Aux (n + 1) n [])

/-- generateId (src/script.js lines 409-411):
Date.now().toString(36) + Math.random().toString(36).substr(2), over its two
entropy sources (the clock value and the random suffix). -/
def generateId (nowMs : Nat) (randSuffix : String) : String :=
  natToBase36 nowMs ++ randSuffix

/-- Observable outcome of one mutating handler: the todos array, the storage
slot, whether a storage write happened (wrote), whether an exception escaped
the handler (threw), and whether an error notification was shown
(errNotif). -/
structure MutResult where
  todos : List Todo
  slot : Option String
  wrote : Bool
  threw : Bool
  errNotif : Bool
deriving Repr, DecidableEq

/-- Shared epilogue of every mutating handler: this.saveTodos() inside the
handler's try/catch.  On success the slot holds the serialized array; on a
setItem failure saveTodos throws, the handler catches, shows an error
notification and returns normally (the in-memory mutation stays). -/
def saveStep (todos : List Todo) (slot : Option String) (saveOk : Bool) : MutResult :=
  if saveOk then ⟨todos, some (saveTodosStr todos), true, false, false⟩
  else ⟨todos, slot, false, false, true⟩

/-- handleAddTodo (src/script.js lines 88-117).  input is the text field
value, now the clock reading, newId the value generateId returned. -/
def handleAddTodo (todos : List Todo) (slot : Option String) (input : String)
    (now : String) (newId : String) (saveOk : Bool) : MutResult :=
  let text := jsTrim input
  if text = "" then ⟨todos, slot, false, false, false⟩
  else
    let todo : Todo := ⟨newId, text, false, now, now⟩
    saveStep (todo :: todos) slot saveOk

/-- In-place mutation of the first task whose id matches, as
this.todos.find(...) followed by field assignment does in toggleTodo. -/
def toggleFirst (id now : String) : List Todo → List Todo
  | [] => []
  | t :: ts =>
    if t.id == id then { t with completed := !t.completed, updatedAt := now } :: ts
    else t :: toggleFirst id now ts

/-- toggleTodo (src/script.js lines 133-153).  Absent id: the find yields
undefined and nothing happens. -/
def toggleTodo (todos : List Todo) (slot : Option String) (id : String)
    (now : String) (saveOk : Bool) : MutResult :=
  if todos.any (fun t => t.id == id) then
    saveStep (toggleFirst id now todos) slot saveOk
  else ⟨todos, slot, false, false, false⟩

/-- editTodo (src/script.js lines 155-169): when the id is found, editingIndex
becomes the index of the first matching task; otherwise it is untouched and
the modal never opens (modelled as none). -/
def editTodoIdx (todos : List Todo) (id : String) : Option Nat :=
  if todos.any (fun t => t.id == id) then
    some (todos.findIdx (fun t => t.id == id))
  else none

/-- saveEdit (src/script.js lines 171-188).  Empty trimmed text: silent
return.  A null editingIndex: the guarded block is skipped.  An out-of-range
index would make the element access yield undefined and the field assignment
throw a caught TypeError (error notification, no mutation). -/
def saveEdit (todos : List Todo) (slot : Option String) (editingIndex : Option Nat)
    (input : String) (now : String) (saveOk : Bool) : MutResult :=
  let newText := jsTrim input
  if newText = "" then ⟨todos, slot, false, false, false⟩
  else
    match editingIndex with
    | none => ⟨todos, slot, false, false, false⟩
    | some i =>
      if h : i < todos.length then
        let t := todos.get ⟨i, h⟩
        saveStep (todos.set i { t with text := newText, updatedAt := now }) slot saveOk
      else ⟨todos, slot, false, false, true⟩

/-- deleteTodo (src/script.js lines 190-207).  The whole body runs only when
the id is found; the filter-and-save runs only when the user confirms. -/
def deleteTodo (todos : List Todo) (slot : Option String) (id : String)
    (confirmed : Bool) (saveOk : Bool) : MutResult :=
  if todos.any (fun t => t.id == id) then
    if confirmed then
      saveStep (todos.filter (fun t => !(t.id == id))) slot saveOk
    else ⟨todos, slot, false, false, false⟩
  else ⟨todos, slot, false, false, false⟩

/-- clearCompleted (src/script.js lines 209-239).  Returns the handler
outcome together with the completedCount the handler computes (displayed in
its notification).  Zero completed tasks: early return, no write. -/
def clearCompleted (todos : List Todo) (slot : Option String)
    (confirmed : Bool) (saveOk : Bool) : MutResult × Nat :=
  let completedCount := (todos.filter (fun t => t.completed)).length
  if completedCount = 0 then (⟨todos, slot, false, false, false⟩, completedCount)
  else if confirmed then
    (saveStep (todos.filter (fun t => !t.completed)) slot saveOk, completedCount)
  else (⟨todos, slot, false, false, false⟩, completedCount)

/-- The view filter states (data-filter values "all", "active",
"completed"). -/
inductive ViewFilter where
  | all : ViewFilter
  | active : ViewFilter
  | completed : ViewFilter
deriving Repr, DecidableEq

/-- getFilteredTodos (src/script.js lines 309-318); the switch default (which
covers "all") returns this.todos. -/
def getFilteredTodos (filter : ViewFilter) (todos : List Todo) : List Todo :=
  match filter with
  | ViewFilter.active => todos.filter (fun t => !t.completed)
  | ViewFilter.completed => todos.filter (fun t => t.completed)
  | ViewFilter.all => todos

/-- hexVal inverts hexDigit on one hex digit. -/
theorem hexVal_hexDigit : ∀ n : Nat, n < 16 → hexVal (hexDigit n) = some n := by
  decide

/-- The character 0 is the hex digit zero. -/
theorem hexVal_zero : hexVal '0' = some 0 := by decide

/-- parseStringBody inverts JSON.stringify string escaping: reading an escaped
body up to the closing quote recovers the original characters. -/
theorem parseStringBody_escape (s : List Char) (rest : List Char) :
    parseStringBody (escapeList s ++ '"' :: rest) = some (s, rest) := by
  induction s with
  | nil =>
    rw [show escapeList [] ++ '"' :: rest = '"' :: rest by simp [escapeList]]
    rw [parseStringBody.eq_def]
    simp
  | cons c s ih =>
    rw [show escapeList (c :: s) ++ '"' :: rest =
        escapeChar c ++ (escapeList s ++ '"' :: rest) by simp [escapeList]]
    by_cases h1 : c = '"'
    · subst h1
      rw [show escapeChar '"' = ['\\', '"'] by decide]
      rw [List.cons_append, List.cons_append, List.nil_append,
        parseStringBody.eq_def]
      simp [ih, escapeCode]
    by_cases h2 : c = '\\'
    · subst h2
      rw [show escapeChar '\\' = ['\\', '\\'] by decide]
      rw [List.cons_append, List.cons_append, List.nil_append,
        parseStringBody.eq_def]
      simp [ih, escapeCode]
    by_cases h3 : c = '\n'
    · subst h3
      rw [show escapeChar '\n' = ['\\', 'n'] by decide]
      rw [List.cons_append, List.cons_append, List.nil_append,
        parseStringBody.eq_def]
      simp [ih, escapeCode]
    by_cases h4 : c = '\r'
    · subst h4
      rw [show escapeChar '\r' = ['\\', 'r'] by decide]
      rw [List.cons_append, List.cons_append, List.nil_append,
        parseStringBody.eq_def]
      simp [ih, escapeCode]
    by_cases h5 : c = '\t'
    · subst h5
      rw [show escapeChar '\t' = ['\\', 't'] by decide]
      rw [List.cons_append, List.cons_append, List.nil_append,
        parseStringBody.eq_def]
      simp [ih, escapeCode]
    by_cases h6 : c = '\x08'
    · subst h6
      rw [show escapeChar '\x08' = ['\\', 'b'] by decide]
      rw [List.cons_append, List.cons_append, List.nil_append,
        parseStringBody.eq_def]
      simp [ih, escapeCode]
    by_cases h7 : c = '\x0c'
    · subst h7
      rw [show escapeChar '\x0c' = ['\\', 'f'] by decide]
      rw [List.cons_append, List.cons_append, List.nil_append,
        parseStringBody.eq_def]
      simp [ih, escapeCode]
    by_cases h8 : c.toNat < 32
    · have hesc : escapeChar c =
          ['\\', 'u', '0', '0', hexDigit (c.toNat / 16), hexDigit (c.toNat % 16)] := by
        simp [escapeChar, beq_iff_eq, h1, h2, h3, h4, h5, h6, h7, h8]
      rw [hesc]
      have hdiv : c.toNat / 16 < 16 := by omega
      have hmod : c.toNat % 16 < 16 := by omega
      simp only [List.cons_append, List.nil_append]
      rw [parseStringBody.eq_def]
      simp [ih, hexVal_hexDigit _ hdiv, hexVal_hexDigit _ hmod, hexVal_zero]
      rw [show c.toNat / 16 * 16 + c.toNat % 16 = c.toNat by omega, Char.ofNat_toNat]
    · have hesc : escapeChar c = [c] := by
        simp [escapeChar, beq_iff_eq, h1, h2, h3, h4, h5, h6, h7, h8]
      rw [hesc, List.cons_append, List.nil_append, parseStringBody.eq_def]
      have hq : (c == '"') = false := by simp [h1]
      have hb : (c == '\\') = false := by simp [h2]
      simp [hq, hb, h8, ih]

/-- Convenience form of renderString under an append. -/
theorem renderString_cons (s : List Char) (rest : List Char) :
    renderString s ++ rest = '"' :: (escapeList s ++ '"' :: rest) := by
  simp [renderString]

/-- A rendered task object is an opening brace followed by its body. -/
theorem renderTodo_append (t : Todo) (X : List Char) :
    renderTodo t ++ X = '\x7b' :: renderTodoBody t X := by
  simp [renderTodo, renderTodoBody]

/-- parseValue reads back a rendered JSON string. -/
theorem parseValue_strN (k : Nat) (sval rest : List Char) :
    parseValue (k + 1) ('"' :: (escapeList sval ++ '"' :: rest)) =
      some (JVal.jstr (String.mk sval), rest) := by
  rw [parseValue.eq_def]
  simp [skipWs, parseStringBody_escape]

/-- parseValue reads back a rendered JSON boolean. -/
theorem parseValue_boolN (k : Nat) (b : Bool) (rest : List Char) :
    parseValue (k + 1) (renderBool b ++ rest) = some (JVal.jbool b, rest) := by
  cases b <;> (rw [parseValue.eq_def]; simp [renderBool, skipWs, expectChars])

/-- parseField reads back a rendered string-valued member. -/
theorem parseField_strN (k : Nat) (key sval rest : List Char) :
    parseField (k + 2)
        ('"' :: (escapeList key ++ '"' :: ':' :: '"' :: (escapeList sval ++ '"' :: rest))) =
      some ((String.mk key, JVal.jstr (String.mk sval)), rest) := by
  rw [show k + 2 = (k + 1) + 1 from rfl, parseField.eq_def]
  simp [skipWs, parseStringBody_escape, parseValue_strN]

/-- parseField reads back a rendered boolean-valued member. -/
theorem parseField_boolN (k : Nat) (key : List Char) (b : Bool) (rest : List Char) :
    parseField (k + 2)
        ('"' :: (escapeList key ++ '"' :: ':' :: (renderBool b ++ rest))) =
      some ((String.mk key, JVal.jbool b), rest) := by
  rw [show k + 2 = (k + 1) + 1 from rfl, parseField.eq_def]
  simp [skipWs, parseStringBody_escape, parseValue_boolN]

set_option maxHeartbeats 1000000 in
/-- parseValue reads back one rendered task object as its structural JSON
value. -/
theorem parseValue_renderTodo (k : Nat) (t : Todo) (rest : List Char) :
    parseValue (k + 7) ('\x7b' :: renderTodoBody t rest) = some (encodeTodo t, rest) := by
  rw [show k + 7 = (k + 6) + 1 from rfl]
  simp only [renderTodoBody, List.cons_append, List.append_assoc, List.singleton_append,
    renderString_cons, List.nil_append]
  rw [parseValue.eq_def]
  simp [skipWs, Char.isWhitespace]
  rw [show k + 6 = (k + 4) + 2 from rfl, parseField_strN]
  norm_num
  rw [show k + 4 + 2 = (k + 5) + 1 from rfl, parseObjTail.eq_def]
  simp [skipWs, Char.isWhitespace]
  rw [show k + 5 = (k + 3) + 2 from rfl, parseField_strN]
  norm_num
  rw [show k + 3 + 2 = (k + 4) + 1 from rfl, parseObjTail.eq_def]
  simp [skipWs, Char.isWhitespace]
  rw [show k + 4 = (k + 2) + 2 from rfl, parseField_boolN]
  norm_num
  rw [show k + 2 + 2 = (k + 3) + 1 from rfl, parseObjTail.eq_def]
  simp [skipWs, Char.isWhitespace]
  rw [show k + 3 = (k + 1) + 2 from rfl, parseField_strN]
  norm_num
  rw [show k + 1 + 2 = (k + 2) + 1 from rfl, parseObjTail.eq_def]
  simp [skipWs, Char.isWhitespace]
  rw [parseField_strN]
  norm_num
  rw [show k + 2 = (k + 1) + 1 from rfl, parseObjTail.eq_def]
  simp [skipWs, Char.isWhitespace, encodeTodo]

/-- parseArrayTail reads back the comma-separated continuation of a rendered
task array. -/
theorem parseArrayTail_renderTail (ts : List Todo) :
    ∀ (k : Nat) (rest : List Char),
      parseArrayTail (k + ts.length + 7) (renderTail ts ++ rest) =
        some (ts.map encodeTodo, rest) := by
  induction ts with
  | nil =>
    intro k rest
    simp only [renderTail, List.length_nil, Nat.add_zero, List.cons_append, List.nil_append]
    rw [show k + 7 = (k + 6) + 1 from rfl, parseArrayTail.eq_def]
    simp [skipWs, Char.isWhitespace]
  | cons t ts ih =>
    intro k rest
    simp only [renderTail, List.length_cons, List.cons_append, List.append_assoc]
    rw [renderTodo_append]
    rw [show k + (ts.length + 1) + 7 = (k + ts.length + 7) + 1 by omega, parseArrayTail.eq_def]
    simp [skipWs, Char.isWhitespace]
    rw [show k + ts.length + 7 = (k + ts.length) + 7 from rfl, parseValue_renderTodo]
    norm_num
    rw [show k + ts.length + 7 = k + ts.length + 7 from rfl]
    rw [ih k rest]

/-- parseValue reads back a full rendered task array as the structural JSON
array of encoded tasks. -/
theorem parseValue_renderTodos (l : List Todo) (k : Nat) (rest : List Char) :
    parseValue (k + l.length + 8) (renderTodos l ++ rest) =
      some (JVal.jarr (l.map encodeTodo), rest) := by
  cases l with
  | nil =>
    simp only [renderTodos, List.length_nil, Nat.add_zero, List.cons_append, List.nil_append]
    rw [show k + 8 = (k + 7) + 1 from rfl, parseValue.eq_def]
    simp [skipWs, Char.isWhitespace]
  | cons t ts =>
    simp only [renderTodos, List.length_cons, List.cons_append, List.append_assoc]
    rw [renderTodo_append]
    rw [show k + (ts.length + 1) + 8 = (k + ts.length + 8) + 1 by omega, parseValue.eq_def]
    simp [skipWs, Char.isWhitespace]
    rw [show k + ts.length + 8 = (k + ts.length + 1) + 7 from rfl, parseValue_renderTodo]
    norm_num
    rw [show k + ts.length + 8 = (k + 1) + ts.length + 7 by omega]
    rw [parseArrayTail_renderTail ts (k + 1) rest]

/-- Characters of a packed string. -/
theorem string_data_mk (l : List Char) : (String.mk l).data = l := rfl

/-- Length of a packed string. -/
theorem string_length_mk (l : List Char) : (String.mk l).length = l.length := rfl

/-- A rendered task object is at least 7 characters long. -/
theorem renderTodo_length_ge (t : Todo) : 7 ≤ (renderTodo t).length := by
  have h : ∀ u : List Char, (renderString u).length = (escapeList u).length + 2 := by
    intro u; simp [renderString]
  simp [renderTodo, List.length_append, h]
  cases t.completed <;> simp [renderBool] <;> omega

/-- A rendered array tail is longer than the number of remaining tasks. -/
theorem renderTail_length_ge (us : List Todo) :
    us.length + 1 ≤ (renderTail us).length := by
  induction us with
  | nil => simp [renderTail]
  | cons u us ih =>
    have hb := renderTodo_length_ge u
    simp only [renderTail, List.length_cons, List.length_append]
    omega

/-- Length lower bound for a rendered nonempty array: enough fuel margin for
the parser. -/
theorem renderTodos_length_ge (t : Todo) (ts : List Todo) :
    ts.length + 8 ≤ (renderTodos (t :: ts)).length := by
  have hb := renderTodo_length_ge t
  have ht := renderTail_length_ge ts
  simp only [renderTodos, List.length_cons, List.length_append]
  omega

/-- JSON.parse inverts JSON.stringify on any task array: the model of the
persisted payload parses back to exactly the encoded tasks, in order. -/
theorem parseJson_saveTodos (l : List Todo) :
    parseJson (saveTodosStr l) = some (JVal.jarr (l.map encodeTodo)) := by
  cases l with
  | nil => rfl
  | cons t ts =>
    have hlen := renderTodos_length_ge t ts
    obtain ⟨K, hK⟩ : ∃ K, (renderTodos (t :: ts)).length + 1 = K + (t :: ts).length + 8 := by
      refine ⟨(renderTodos (t :: ts)).length - ts.length - 8, ?_⟩
      simp only [List.length_cons]
      omega
    rw [parseJson]
    rw [show saveTodosStr (t :: ts) = String.mk (renderTodos (t :: ts)) from rfl]
    rw [string_length_mk, string_data_mk, hK]
    rw [show renderTodos (t :: ts) = renderTodos (t :: ts) ++ [] by simp]
    rw [parseValue_renderTodos]
    simp [skipWs]

/-- A nonempty string has positive length. -/
theorem string_length_pos (s : String) (h : s ≠ "") : 0 < s.length := by
  cases s with
  | mk data =>
    cases data with
    | nil => exact absurd rfl h
    | cons c cs => simp [string_length_mk]

/-- The serialized todos payload is never the empty string. -/
theorem saveTodosStr_ne_empty (l : List Todo) : saveTodosStr l ≠ "" := by
  cases l with
  | nil =>
    intro h
    have hd := congrArg String.data h
    simp [saveTodosStr, renderTodos] at hd
  | cons t ts =>
    intro h
    have := renderTodos_length_ge t ts
    have h0 : (saveTodosStr (t :: ts)).length = 0 := by rw [h]; rfl
    rw [show (saveTodosStr (t :: ts)).length = (renderTodos (t :: ts)).length from rfl] at h0
    omega

/-- An encoded task passes the loadTodos element filter exactly when its id is
truthy and its text has nonempty trim. -/
theorem recordFilter_encodeTodo (t : Todo) (hid : t.id ≠ "") (htext : jsTrim t.text ≠ "") :
    recordFilter (encodeTodo t) = true := by
  have hpos : 0 < (jsTrim t.text).length := string_length_pos _ htext
  have htne : t.text ≠ "" := by
    intro h
    apply htext
    rw [h]
    decide
  simp [recordFilter, encodeTodo, jTruthy, jTypeofObject, jProp, lastField,
    optTruthy, optIsString, optTrimLenPos, hid, htne, hpos]

/-- loadTodos applied to a freshly serialized valid store succeeds, keeps the
slot, and returns exactly the encoded tasks in order. -/
theorem loadTodos_saveTodos (l : List Todo)
    (hval : ∀ t ∈ l, t.id ≠ "" ∧ jsTrim t.text ≠ "") :
    loadTodos (some (saveTodosStr l)) =
      ⟨l.map encodeTodo, some (saveTodosStr l), false⟩ := by
  have hne : (saveTodosStr l == "") = false := by
    simp [saveTodosStr_ne_empty l]
  have hfil : (l.map encodeTodo).filter recordFilter = l.map encodeTodo := by
    apply List.filter_eq_self.mpr
    intro a ha
    obtain ⟨t, ht, rfl⟩ := List.mem_map.mp ha
    exact recordFilter_encodeTodo t (hval t ht).1 (hval t ht).2
  simp [loadTodos, hne, parseJson_saveTodos, hfil]

/-- Distinct tasks have distinct encodings: the encoded object determines the
id, text, flag and both timestamps. -/
theorem encodeTodo_injective : Function.Injective encodeTodo := by
  intro a b h
  cases a
  cases b
  simp [encodeTodo] at h
  obtain ⟨h1, h2, h3, h4, h5⟩ := h
  simp_all

/-- Toggling never changes ids or order. -/
theorem toggleFirst_map_id (id now : String) (l : List Todo) :
    (toggleFirst id now l).map Todo.id = l.map Todo.id := by
  induction l with
  | nil => rfl
  | cons t ts ih =>
    by_cases h : (t.id == id) = true
    · simp [toggleFirst, h]
    · simp only [toggleFirst, Bool.not_eq_true] at h
      simp [toggleFirst, h, ih]

/-- Toggling preserves the length of the list. -/
theorem toggleFirst_length (id now : String) (l : List Todo) :
    (toggleFirst id now l).length = l.length := by
  have := congrArg List.length (toggleFirst_map_id id now l)
  simpa using this

/-- Toggling an absent id changes nothing. -/
theorem toggleFirst_absent (id now : String) (l : List Todo)
    (h : l.any (fun t => t.id == id) = false) : toggleFirst id now l = l := by
  induction l with
  | nil => rfl
  | cons t ts ih =>
    simp only [List.any_cons, Bool.or_eq_false_iff] at h
    simp [toggleFirst, h.1, ih h.2]

/-- Toggling a present id rewrites exactly the first matching position: the
matched task keeps its id, text and creation time, its completed flag is
negated and its updatedAt becomes the clock value. -/
theorem toggleFirst_eq_set (id now : String) (l : List Todo)
    (h : l.any (fun t => t.id == id) = true) :
    ∃ u : Todo, l.get? (l.findIdx (fun t => t.id == id)) = some u ∧
      toggleFirst id now l =
        l.set (l.findIdx (fun t => t.id == id))
          { u with completed := !u.completed, updatedAt := now } := by
  induction l with
  | nil => simp at h
  | cons t ts ih =>
    by_cases ht : (t.id == id) = true
    · have hj0 : (t :: ts).findIdx (fun t => t.id == id) = 0 := by
        rw [List.findIdx_cons, ht]
        rfl
      refine ⟨t, by rw [hj0]; rfl, ?_⟩
      rw [hj0, List.set_cons_zero]
      show (if (t.id == id) = true then
          { t with completed := !t.completed, updatedAt := now } :: ts
        else t :: toggleFirst id now ts) = _
      rw [if_pos ht]
    · have htf : (t.id == id) = false := by
        simpa using ht
      have hjs : (t :: ts).findIdx (fun t => t.id == id) =
          ts.findIdx (fun t => t.id == id) + 1 := by
        rw [List.findIdx_cons, htf]
        rfl
      have hts : ts.any (fun t => t.id == id) = true := by
        simpa [htf] using h
      obtain ⟨u, hu, hset⟩ := ih hts
      refine ⟨u, by rw [hjs]; simpa using hu, ?_⟩
      rw [hjs, List.set_cons_succ]
      show (if (t.id == id) = true then
          { t with completed := !t.completed, updatedAt := now } :: ts
        else t :: toggleFirst id now ts) = _
      rw [if_neg (by simp [htf]), hset]

/-- Every position other than the first match is untouched by a toggle. -/
theorem toggleFirst_get_other (id now : String) (l : List Todo)
    (i : Nat) (hi : i < l.length) (hi2 : i < (toggleFirst id now l).length)
    (hne : i ≠ l.findIdx (fun t => t.id == id)) :
    (toggleFirst id now l).get ⟨i, hi2⟩ = l.get ⟨i, hi⟩ := by
  induction l generalizing i with
  | nil => simp at hi
  | cons t ts ih =>
    by_cases ht : (t.id == id) = true
    · have hj : (t :: ts).findIdx (fun t => t.id == id) = 0 := by
        simp [List.findIdx_cons, ht]
      rw [hj] at hne
      cases i with
      | zero => exact absurd rfl hne
      | succ i => simp [toggleFirst, ht]
    · have hj : (t :: ts).findIdx (fun t => t.id == id) =
          ts.findIdx (fun t => t.id == id) + 1 := by
        simp only [Bool.not_eq_true] at ht
        simp [List.findIdx_cons, ht]
      rw [hj] at hne
      simp only [Bool.not_eq_true] at ht
      cases i with
      | zero => simp [toggleFirst, ht]
      | succ i =>
        have hi' : i < ts.length := by simpa using hi
        have hi2' : i < (toggleFirst id now ts).length := by
          simp only [toggleFirst, ht] at hi2
          simpa using hi2
        have := ih i hi' hi2' (by omega)
        simpa [toggleFirst, ht] using this

/-- Toggling twice restores every completed flag. -/
theorem toggleFirst_involution (id n1 n2 : String) (l : List Todo) :
    (toggleFirst id n2 (toggleFirst id n1 l)).map (fun t => t.completed) =
      l.map (fun t => t.completed) := by
  induction l with
  | nil => rfl
  | cons t ts ih =>
    by_cases ht : (t.id == id) = true
    · simp [toggleFirst, ht]
    · simp only [Bool.not_eq_true] at ht
      simp [toggleFirst, ht, ih]

/-- Setting a position to its current value changes nothing. -/
theorem list_set_self {α : Type} (l : List α) (i : Nat) (h : i < l.length) :
    l.set i (l.get ⟨i, h⟩) = l := by
  induction l generalizing i with
  | nil => simp at h
  | cons a as ih =>
    cases i with
    | zero => rfl
    | succ i =>
      have h' : i < as.length := by simpa using h
      show a :: as.set i (as.get ⟨i, h'⟩) = a :: as
      rw [ih i h']

/-- A Boolean predicate splits the length of a list between the filter and its
complement. -/
theorem filter_partition_length (l : List Todo) (p : Todo → Bool) :
    (l.filter p).length + (l.filter (fun t => !(p t))).length = l.length := by
  induction l with
  | nil => rfl
  | cons t ts ih =>
    by_cases h : p t = true
    · simp [List.filter_cons, h]
      omega
    · have hf : p t = false := by simpa using h
      simp [List.filter_cons, hf]
      omega

/-- With pairwise-distinct ids, removing a present id removes exactly one
element. -/
theorem delete_length_nodup (id : String) (l : List Todo)
    (hnd : (l.map Todo.id).Nodup) (h : l.any (fun t => t.id == id) = true) :
    (l.filter (fun t => !(t.id == id))).length + 1 = l.length := by
  induction l with
  | nil => simp at h
  | cons t ts ih =>
    simp only [List.map_cons, List.nodup_cons, List.mem_map] at hnd
    by_cases ht : (t.id == id) = true
    · have hteq : t.id = id := by simpa using ht
      have hkeep : ts.filter (fun u => !(u.id == id)) = ts := by
        apply List.filter_eq_self.mpr
        intro u hu
        have : u.id ≠ id := by
          intro hbad
          exact hnd.1 ⟨u, hu, by rw [hbad, hteq]⟩
        simpa using this
      simp [List.filter_cons, ht, hkeep]
    · have htf : (t.id == id) = false := by simpa using ht
      have hts : ts.any (fun u => u.id == id) = true := by
        simpa [htf] using h
      have := ih hnd.2 hts
      simp only [List.filter_cons, htf, Bool.not_false, if_true, List.length_cons]
      omega

/-- C1: for every input whose trim is nonempty, handleAddTodo constructs a new
task with the freshly generated id, completed = false, createdAt equal to
updatedAt, inserts it at the front (so the store grows by exactly one and ids
stay pairwise distinct when the generated id is fresh), and persists the
collection. -/
theorem claimC1_add_inserts_front_and_persists (todos : List Todo)
    (slot : Option String) (input now newId : String)
    (hne : jsTrim input ≠ "") (hfresh : ∀ t ∈ todos, t.id ≠ newId)
    (hnd : (todos.map Todo.id).Nodup) :
    (handleAddTodo todos slot input now newId true).todos =
        (⟨newId, jsTrim input, false, now, now⟩ : Todo) :: todos ∧
      (handleAddTodo todos slot input now newId true).todos.length = todos.length + 1 ∧
      ((handleAddTodo todos slot input now newId true).todos.map Todo.id).Nodup ∧
      (handleAddTodo todos slot input now newId true).slot =
        some (saveTodosStr ((⟨newId, jsTrim input, false, now, now⟩ : Todo) :: todos)) ∧
      (handleAddTodo todos slot input now newId true).wrote = true ∧
      (handleAddTodo todos slot input now newId true).threw = false := by
  have hnotin : newId ∉ todos.map Todo.id := by
    intro hmem
    obtain ⟨t, ht, hid⟩ := List.mem_map.mp hmem
    exact hfresh t ht hid
  simp [handleAddTodo, saveStep, hne, List.nodup_cons, hnotin, hnd]

/-- C1 witness: a concrete instance of the add theorem. -/
theorem claimC1_witness :
    (handleAddTodo [] none " buy milk " "2024-01-01T00:00:00.000Z" "lx1abc" true).todos =
        [(⟨"lx1abc", jsTrim " buy milk ", false, "2024-01-01T00:00:00.000Z",
           "2024-01-01T00:00:00.000Z"⟩ : Todo)] ∧
      (handleAddTodo [] none " buy milk " "2024-01-01T00:00:00.000Z" "lx1abc" true).todos.length =
        0 + 1 := by
  have h := claimC1_add_inserts_front_and_persists [] none " buy milk "
    "2024-01-01T00:00:00.000Z" "lx1abc" (by decide) (by simp) (by simp)
  exact ⟨h.1, by simpa using h.2.1⟩

/-- C7: the filtered view returns all tasks, exactly the active tasks, or
exactly the completed tasks, preserving store order (the view is a sublist of
the store); the store itself is not touched. -/
theorem claimC7_filtered_views (todos : List Todo) :
    getFilteredTodos ViewFilter.all todos = todos ∧
    (∀ t, t ∈ getFilteredTodos ViewFilter.active todos ↔ t ∈ todos ∧ t.completed = false) ∧
    (∀ t, t ∈ getFilteredTodos ViewFilter.completed todos ↔ t ∈ todos ∧ t.completed = true) ∧
    (getFilteredTodos ViewFilter.active todos).Sublist todos ∧
    (getFilteredTodos ViewFilter.completed todos).Sublist todos := by
  refine ⟨rfl, ?_, ?_, ?_, ?_⟩
  · intro t
    simp [getFilteredTodos, List.mem_filter]
  · intro t
    simp [getFilteredTodos, List.mem_filter]
  · exact List.filter_sublist _
  · exact List.filter_sublist _

/-- C8: empty or whitespace-only input makes both add and edit silent no-ops:
store and slot unchanged, no write, no escaping exception, no error
notification. -/
theorem claimC8_empty_input_noop (todos : List Todo) (slot : Option String)
    (input now newId : String) (editingIndex : Option Nat) (saveOk : Bool)
    (h : jsTrim input = "") :
    handleAddTodo todos slot input now newId saveOk = ⟨todos, slot, false, false, false⟩ ∧
      saveEdit todos slot editingIndex input now saveOk = ⟨todos, slot, false, false, false⟩ := by
  constructor
  · simp [handleAddTodo, h]
  · simp [saveEdit, h]

/-- C8 witness: whitespace-only input on a nonempty store. -/
theorem claimC8_witness :
    handleAddTodo [⟨"a", "x", false, "c", "u"⟩] (some "S") "   " "T" "fresh" true =
        ⟨[⟨"a", "x", false, "c", "u"⟩], some "S", false, false, false⟩ ∧
      saveEdit [⟨"a", "x", false, "c", "u"⟩] (some "S") (some 0) "   " "T" true =
        ⟨[⟨"a", "x", false, "c", "u"⟩], some "S", false, false, false⟩ :=
  claimC8_empty_input_noop [⟨"a", "x", false, "c", "u"⟩] (some "S") "   " "T" "fresh"
    (some 0) true (by decide)

/-- The todos carried by the save epilogue are the mutated list, whether or
not the write succeeds. -/
theorem saveStep_todos (l : List Todo) (slot : Option String) (saveOk : Bool) :
    (saveStep l slot saveOk).todos = l := by
  cases saveOk <;> rfl

/-- Toggling does not change which ids are present. -/
theorem any_id_toggleFirst (id now : String) (l : List Todo) :
    (toggleFirst id now l).any (fun t => t.id == id) = l.any (fun t => t.id == id) := by
  induction l with
  | nil => rfl
  | cons t ts ih =>
    by_cases ht : (t.id == id) = true
    · simp [toggleFirst, ht]
    · have htf : (t.id == id) = false := by simpa using ht
      simp [toggleFirst, htf, ih]

/-- C2: toggling a present id rewrites exactly the first matching task,
negating its completed flag and stamping updatedAt, and persists; toggling
twice restores every completed flag (involution); toggling an absent id is a
complete no-op. -/
theorem claimC2_toggle_involution (todos : List Todo) (slot slot2 : Option String)
    (id now now2 : String) (saveOk : Bool) :
    (todos.any (fun t => t.id == id) = true →
      ∃ u : Todo,
        todos.get? (todos.findIdx (fun t => t.id == id)) = some u ∧
        (toggleTodo todos slot id now true).todos =
          todos.set (todos.findIdx (fun t => t.id == id))
            { u with completed := !u.completed, updatedAt := now } ∧
        (toggleTodo todos slot id now true).wrote = true ∧
        (toggleTodo todos slot id now true).slot =
          some (saveTodosStr (toggleTodo todos slot id now true).todos)) ∧
    ((toggleTodo (toggleTodo todos slot id now saveOk).todos slot2 id now2 saveOk).todos.map
        (fun t => t.completed) = todos.map (fun t => t.completed)) ∧
    (todos.any (fun t => t.id == id) = false →
      toggleTodo todos slot id now saveOk = ⟨todos, slot, false, false, false⟩) := by
  refine ⟨?_, ?_, ?_⟩
  · intro hp
    obtain ⟨u, hu, hset⟩ := toggleFirst_eq_set id now todos hp
    exact ⟨u, hu, by simp [toggleTodo, hp, saveStep, hset],
      by simp [toggleTodo, hp, saveStep],
      by simp [toggleTodo, hp, saveStep]⟩
  · by_cases hp : todos.any (fun t => t.id == id) = true
    · have h1 : (toggleTodo todos slot id now saveOk).todos = toggleFirst id now todos := by
        simp [toggleTodo, hp, saveStep_todos]
      have hp2 : (toggleFirst id now todos).any (fun t => t.id == id) = true := by
        rw [any_id_toggleFirst, hp]
      have h2 : (toggleTodo (toggleFirst id now todos) slot2 id now2 saveOk).todos =
          toggleFirst id now2 (toggleFirst id now todos) := by
        simp [toggleTodo, hp2, saveStep_todos]
      rw [h1, h2]
      exact toggleFirst_involution id now now2 todos
    · have hf : todos.any (fun t => t.id == id) = false := by simpa using hp
      have h1 : (toggleTodo todos slot id now saveOk).todos = todos := by
        simp [toggleTodo, hf]
      rw [h1]
      have h2 : (toggleTodo todos slot2 id now2 saveOk).todos = todos := by
        simp [toggleTodo, hf]
      rw [h2]
  · intro ha
    simp [toggleTodo, ha]

/-- C2 witness: a concrete two-task store, present and absent ids. -/
theorem claimC2_witness :
    (∃ u : Todo,
        [(⟨"a", "x", false, "c", "u"⟩ : Todo), ⟨"b", "y", true, "c", "u"⟩].get?
            ([(⟨"a", "x", false, "c", "u"⟩ : Todo), ⟨"b", "y", true, "c", "u"⟩].findIdx
              (fun t => t.id == "b")) = some u ∧
        (toggleTodo [(⟨"a", "x", false, "c", "u"⟩ : Todo), ⟨"b", "y", true, "c", "u"⟩]
              (some "S") "b" "T1" true).todos =
          [(⟨"a", "x", false, "c", "u"⟩ : Todo), ⟨"b", "y", true, "c", "u"⟩].set
            ([(⟨"a", "x", false, "c", "u"⟩ : Todo), ⟨"b", "y", true, "c", "u"⟩].findIdx
              (fun t => t.id == "b"))
            { u with completed := !u.completed, updatedAt := "T1" } ∧
        (toggleTodo [(⟨"a", "x", false, "c", "u"⟩ : Todo), ⟨"b", "y", true, "c", "u"⟩]
              (some "S") "b" "T1" true).wrote = true ∧
        (toggleTodo [(⟨"a", "x", false, "c", "u"⟩ : Todo), ⟨"b", "y", true, "c", "u"⟩]
              (some "S") "b" "T1" true).slot =
          some (saveTodosStr
            (toggleTodo [(⟨"a", "x", false, "c", "u"⟩ : Todo), ⟨"b", "y", true, "c", "u"⟩]
              (some "S") "b" "T1" true).todos)) ∧
      toggleTodo [(⟨"a", "x", false, "c", "u"⟩ : Todo)] (some "S") "zz" "T1" true =
        ⟨[(⟨"a", "x", false, "c", "u"⟩ : Todo)], some "S", false, false, false⟩ :=
  ⟨(claimC2_toggle_involution [⟨"a", "x", false, "c", "u"⟩, ⟨"b", "y", true, "c", "u"⟩]
      (some "S") none "b" "T1" "T2" true).1 (by decide),
    (claimC2_toggle_involution [⟨"a", "x", false, "c", "u"⟩] (some "S") none "zz" "T1" "T2"
      true).2.2 (by decide)⟩

/-- C3 counterexample: deleting an absent id performs no persistence write and
leaves the slot untouched, refuting the claim that delete persists the
collection regardless of whether a removal occurred. -/
theorem claimC3_counterexample :
    ¬ ((deleteTodo [(⟨"a", "x", false, "c", "u"⟩ : Todo)] (some "S") "zz" true true).wrote = true) ∧
      (deleteTodo [(⟨"a", "x", false, "c", "u"⟩ : Todo)] (some "S") "zz" true true).slot = some "S" ∧
      (deleteTodo [(⟨"a", "x", false, "c", "u"⟩ : Todo)] (some "S") "zz" true true).todos =
        [(⟨"a", "x", false, "c", "u"⟩ : Todo)] := by
  refine ⟨?_, rfl, rfl⟩
  intro h
  simp [deleteTodo, saveStep] at h

/-- C3 amended: deleting an absent id is a complete no-op (store, slot and
write flag unchanged, nothing reported); deleting a present id with
confirmation removes exactly the task with that id (size decreases by one
under the unique-id invariant, no task with the id remains) and persists the
new collection. -/
theorem claimC3_delete_amended (todos : List Todo) (slot : Option String)
    (id : String) (confirmed saveOk : Bool) :
    (todos.any (fun t => t.id == id) = false →
      deleteTodo todos slot id confirmed saveOk = ⟨todos, slot, false, false, false⟩) ∧
    (todos.any (fun t => t.id == id) = true →
      (todos.map Todo.id).Nodup →
      (deleteTodo todos slot id true true).todos.length + 1 = todos.length ∧
      (∀ u ∈ (deleteTodo todos slot id true true).todos, u.id ≠ id) ∧
      (deleteTodo todos slot id true true).wrote = true ∧
      (deleteTodo todos slot id true true).slot =
        some (saveTodosStr (deleteTodo todos slot id true true).todos)) := by
  constructor
  · intro ha
    simp [deleteTodo, ha]
  · intro hp hnd
    refine ⟨?_, ?_, ?_, ?_⟩
    · simp only [deleteTodo, hp, if_true, saveStep]
      simpa using delete_length_nodup id todos hnd hp
    · intro u hu
      simp only [deleteTodo, hp, if_true, saveStep] at hu
      simp only [List.mem_filter] at hu
      simpa using hu.2
    · simp [deleteTodo, hp, saveStep]
    · simp [deleteTodo, hp, saveStep]

/-- C3 witness: concrete absent and present deletions. -/
theorem claimC3_witness :
    deleteTodo [(⟨"a", "x", false, "c", "u"⟩ : Todo)] (some "S") "zz" true true =
        ⟨[(⟨"a", "x", false, "c", "u"⟩ : Todo)], some "S", false, false, false⟩ ∧
      ((deleteTodo [(⟨"a", "x", false, "c", "u"⟩ : Todo), ⟨"b", "y", true, "c", "u"⟩]
          (some "S") "b" true true).todos.length + 1 = 2 ∧
        (∀ u ∈ (deleteTodo [(⟨"a", "x", false, "c", "u"⟩ : Todo), ⟨"b", "y", true, "c", "u"⟩]
          (some "S") "b" true true).todos, u.id ≠ "b")) :=
  ⟨(claimC3_delete_amended [(⟨"a", "x", false, "c", "u"⟩ : Todo)] (some "S") "zz" true
      true).1 (by decide),
    by
      have h := (claimC3_delete_amended
        [(⟨"a", "x", false, "c", "u"⟩ : Todo), ⟨"b", "y", true, "c", "u"⟩]
        (some "S") "b" true true).2 (by decide) (by decide)
      exact ⟨h.1, h.2.1⟩⟩

/-- The count reported by clearCompleted is always the number of completed
tasks at entry. -/
theorem clearCompleted_count (l : List Todo) (slot : Option String)
    (confirmed saveOk : Bool) :
    (clearCompleted l slot confirmed saveOk).2 = (l.filter (fun t => t.completed)).length := by
  by_cases h : (l.filter (fun t => t.completed)).length = 0
  · simp [clearCompleted, h]
  · by_cases hc : confirmed = true
    · simp [clearCompleted, h, hc]
    · have : confirmed = false := by simpa using hc
      simp [clearCompleted, h, this]

/-- C4: with the user confirming, clearCompleted removes exactly the set of
completed tasks (every other task kept, in order), reports the number of
completed tasks it found (the amount removed; zero when there were none, in
which case nothing is written), persists exactly when that count is positive,
and an immediately repeated call reports zero. -/
theorem claimC4_clearCompleted (todos : List Todo) (slot : Option String) :
    (clearCompleted todos slot true true).2 = (todos.filter (fun t => t.completed)).length ∧
    (clearCompleted todos slot true true).1.todos = todos.filter (fun t => !t.completed) ∧
    (∀ t, t ∈ (clearCompleted todos slot true true).1.todos ↔
        t ∈ todos ∧ t.completed = false) ∧
    ((clearCompleted todos slot true true).1.todos).Sublist todos ∧
    (clearCompleted todos slot true true).2 =
      todos.length - (clearCompleted todos slot true true).1.todos.length ∧
    ((clearCompleted todos slot true true).2 = 0 →
      clearCompleted todos slot true true = (⟨todos, slot, false, false, false⟩, 0)) ∧
    (∀ confirmed saveOk : Bool, (clearCompleted todos slot confirmed saveOk).1.wrote = true →
      0 < (clearCompleted todos slot confirmed saveOk).2) ∧
    (0 < (clearCompleted todos slot true true).2 →
      (clearCompleted todos slot true true).1.wrote = true ∧
      (clearCompleted todos slot true true).1.slot =
        some (saveTodosStr (todos.filter (fun t => !t.completed)))) ∧
    (clearCompleted (clearCompleted todos slot true true).1.todos
      (clearCompleted todos slot true true).1.slot true true).2 = 0 := by
  have hcnt := clearCompleted_count todos slot true true
  have htodos : (clearCompleted todos slot true true).1.todos =
      todos.filter (fun t => !t.completed) := by
    by_cases h : (todos.filter (fun t => t.completed)).length = 0
    · have hall : todos.filter (fun t => !t.completed) = todos := by
        apply List.filter_eq_self.mpr
        intro u hu
        have : u ∉ todos.filter (fun t => t.completed) := by
          intro hin
          rw [List.length_eq_zero] at h
          rw [h] at hin
          simp at hin
        simp only [List.mem_filter] at this
        rcases Bool.eq_false_or_eq_true u.completed with htr | hfa
        · exact absurd ⟨hu, htr⟩ this
        · rw [hfa]
          rfl
      simp [clearCompleted, h, hall]
    · simp [clearCompleted, h, saveStep_todos]
  have hpart := filter_partition_length todos (fun t => t.completed)
  refine ⟨hcnt, htodos, ?_, ?_, ?_, ?_, ?_, ?_, ?_⟩
  · intro t
    rw [htodos]
    simp [List.mem_filter]
  · rw [htodos]
    exact List.filter_sublist _
  · rw [hcnt, htodos]
    omega
  · intro h0
    have h := h0
    rw [hcnt] at h
    simp [clearCompleted, h]
  · intro confirmed saveOk hw
    rw [clearCompleted_count]
    by_cases h : (todos.filter (fun t => t.completed)).length = 0
    · simp [clearCompleted, h] at hw
    · omega
  · intro hpos
    rw [hcnt] at hpos
    have h : ¬ (todos.filter (fun t => t.completed)).length = 0 := by omega
    constructor
    · simp [clearCompleted, h, saveStep]
    · simp [clearCompleted, h, saveStep]
  · rw [clearCompleted_count, htodos]
    have : (todos.filter (fun t => !t.completed)).filter (fun t => t.completed) = [] := by
      apply List.filter_eq_nil_iff.mpr
      intro u hu
      simp only [List.mem_filter] at hu
      have h2 := hu.2
      intro hcon
      rw [hcon] at h2
      simp at h2
    rw [this]
    rfl

/-- C4 witness: a concrete store with one completed and one active task. -/
theorem claimC4_witness :
    (clearCompleted [(⟨"a", "x", true, "c", "u"⟩ : Todo), ⟨"b", "y", false, "c", "u"⟩]
        (some "S") true true).2 =
      ([(⟨"a", "x", true, "c", "u"⟩ : Todo), ⟨"b", "y", false, "c", "u"⟩].filter
        (fun t => t.completed)).length ∧
    (clearCompleted [(⟨"a", "x", true, "c", "u"⟩ : Todo), ⟨"b", "y", false, "c", "u"⟩]
        (some "S") true true).1.wrote = true ∧
    (clearCompleted [(⟨"a", "x", true, "c", "u"⟩ : Todo), ⟨"b", "y", false, "c", "u"⟩]
        (some "S") true true).1.slot =
      some (saveTodosStr
        ([(⟨"a", "x", true, "c", "u"⟩ : Todo), ⟨"b", "y", false, "c", "u"⟩].filter
          (fun t => !t.completed))) :=
  ⟨(claimC4_clearCompleted [(⟨"a", "x", true, "c", "u"⟩ : Todo), ⟨"b", "y", false, "c", "u"⟩]
      (some "S")).1,
    (claimC4_clearCompleted [(⟨"a", "x", true, "c", "u"⟩ : Todo), ⟨"b", "y", false, "c", "u"⟩]
      (some "S")).2.2.2.2.2.2.2.1 (by decide)⟩

/-- C9 counterexample: when the storage write fails during add, the handler
catches the error (nothing escapes to its caller), shows an error
notification, and the in-memory mutation has still happened — refuting the
claim that the failure is surfaced to the operation caller. -/
theorem claimC9_counterexample :
    (handleAddTodo [] none "task" "T" "id1" false).threw = false ∧
      (handleAddTodo [] none "task" "T" "id1" false).errNotif = true ∧
      (handleAddTodo [] none "task" "T" "id1" false).todos.length = 1 := by
  decide

/-- C9 amended: when the storage write fails, every mutating handler catches
the thrown persistence error internally (no exception escapes the handler;
an error notification is shown instead) and the in-memory mutation is not
rolled back: the new collection still reflects the mutation while the
persisted slot is unchanged. -/
theorem claimC9_persistence_failure_amended (todos : List Todo) (slot : Option String)
    (input now newId id : String) :
    (jsTrim input ≠ "" →
      handleAddTodo todos slot input now newId false =
        ⟨(⟨newId, jsTrim input, false, now, now⟩ : Todo) :: todos, slot, false, false, true⟩) ∧
    (todos.any (fun t => t.id == id) = true →
      toggleTodo todos slot id now false =
        ⟨toggleFirst id now todos, slot, false, false, true⟩) ∧
    (∀ i (hi : i < todos.length), jsTrim input ≠ "" →
      saveEdit todos slot (some i) input now false =
        ⟨todos.set i { todos.get ⟨i, hi⟩ with text := jsTrim input, updatedAt := now },
          slot, false, false, true⟩) ∧
    (todos.any (fun t => t.id == id) = true →
      deleteTodo todos slot id true false =
        ⟨todos.filter (fun t => !(t.id == id)), slot, false, false, true⟩) ∧
    ((todos.filter (fun t => t.completed)).length ≠ 0 →
      clearCompleted todos slot true false =
        (⟨todos.filter (fun t => !t.completed), slot, false, false, true⟩,
          (todos.filter (fun t => t.completed)).length)) := by
  refine ⟨?_, ?_, ?_, ?_, ?_⟩
  · intro h
    simp [handleAddTodo, saveStep, h]
  · intro h
    simp [toggleTodo, saveStep, h]
  · intro i hi h
    simp [saveEdit, saveStep, h, hi]
  · intro h
    simp [deleteTodo, saveStep, h]
  · intro h
    simp [clearCompleted, saveStep, h]

/-- C9 witness: a concrete failing write during add and toggle. -/
theorem claimC9_witness :
    handleAddTodo [] (some "S") "task" "T" "id1" false =
        ⟨[(⟨"id1", jsTrim "task", false, "T", "T"⟩ : Todo)], some "S", false, false, true⟩ ∧
      toggleTodo [(⟨"a", "x", false, "c", "u"⟩ : Todo)] (some "S") "a" "T2" false =
        ⟨toggleFirst "a" "T2" [(⟨"a", "x", false, "c", "u"⟩ : Todo)], some "S",
          false, false, true⟩ :=
  ⟨(claimC9_persistence_failure_amended [] (some "S") "task" "T" "id1" "zz").1 (by decide),
    (claimC9_persistence_failure_amended [(⟨"a", "x", false, "c", "u"⟩ : Todo)] (some "S")
      "task" "T2" "id1" "a").2.1 (by decide)⟩

/-- C5 counterexample: the empty-string payload is not valid structured data
(JSON.parse rejects it), yet loadTodos skips it entirely: nothing is raised
and the persisted slot is not cleared — refuting the claim for this
payload. -/
theorem claimC5_counterexample :
    parseJson "" = none ∧ loadTodos (some "") = ⟨[], some "", false⟩ := by
  constructor
  · rfl
  · rfl

/-- C5 amended: for every nonempty persisted payload that does not parse,
loadTodos clears the persisted slot, resets the store to empty and re-throws
the error to its caller, and the system stays usable: a subsequent add on the
empty store inserts one task without throwing. -/
theorem claimC5_load_failure_amended (s : String) (hne : s ≠ "")
    (hbad : parseJson s = none) :
    loadTodos (some s) = ⟨[], none, true⟩ ∧
      (∀ input now newId : String, jsTrim input ≠ "" →
        (handleAddTodo [] none input now newId true).todos.length = 1 ∧
        (handleAddTodo [] none input now newId true).threw = false) := by
  constructor
  · have hbe : (s == "") = false := by simpa using hne
    simp [loadTodos, hbe, hbad]
  · intro input now newId h
    constructor
    · simp [handleAddTodo, saveStep, h]
    · simp [handleAddTodo, saveStep, h]

/-- C5 witness: a concrete corrupt payload followed by a successful add. -/
theorem claimC5_witness :
    loadTodos (some "corrupt \x7b payload") = ⟨[], none, true⟩ ∧
      (handleAddTodo [] none "hello" "T" "id1" true).todos.length = 1 ∧
      (handleAddTodo [] none "hello" "T" "id1" true).threw = false := by
  have h := claimC5_load_failure_amended "corrupt \x7b payload" (by decide) (by rfl)
  exact ⟨h.1, h.2 "hello" "T" "id1" (by decide)⟩

/-- C6: serializing any store whose tasks satisfy the Task invariants (truthy
id, nonempty trimmed text) and loading the result back yields exactly the
encoded tasks, in order, with nothing thrown and the slot intact; the
encoding is injective, so the ordered sequence of tasks (ids, texts, flags,
timestamps) is recovered identically. -/
theorem claimC6_roundtrip (todos : List Todo)
    (hval : ∀ t ∈ todos, t.id ≠ "" ∧ jsTrim t.text ≠ "") :
    (loadTodos (some (saveTodosStr todos))).todos = todos.map encodeTodo ∧
      (loadTodos (some (saveTodosStr todos))).threw = false ∧
      (loadTodos (some (saveTodosStr todos))).slot = some (saveTodosStr todos) ∧
      Function.Injective encodeTodo := by
  have h := loadTodos_saveTodos todos hval
  refine ⟨?_, ?_, ?_, encodeTodo_injective⟩
  · rw [h]
  · rw [h]
  · rw [h]

/-- C6 witness: a concrete two-task store with escapes in the text. -/
theorem claimC6_witness :
    (loadTodos (some (saveTodosStr
        [(⟨"a1", "Buy milk", false, "2024-01-01", "2024-01-02"⟩ : Todo),
         ⟨"b2", "say \"hi\"\n", true, "2024-02-01", "2024-02-02"⟩]))).todos =
      [(⟨"a1", "Buy milk", false, "2024-01-01", "2024-01-02"⟩ : Todo),
       ⟨"b2", "say \"hi\"\n", true, "2024-02-01", "2024-02-02"⟩].map encodeTodo ∧
    (loadTodos (some (saveTodosStr
        [(⟨"a1", "Buy milk", false, "2024-01-01", "2024-01-02"⟩ : Todo),
         ⟨"b2", "say \"hi\"\n", true, "2024-02-01", "2024-02-02"⟩]))).threw = false := by
  have h := claimC6_roundtrip
    [(⟨"a1", "Buy milk", false, "2024-01-01", "2024-01-02"⟩ : Todo),
     ⟨"b2", "say \"hi\"\n", true, "2024-02-01", "2024-02-02"⟩] (by decide)
  exact ⟨h.1, h.2.1⟩

/-- When some element satisfies the predicate, findIdx is in range. -/
theorem findIdx_lt_of_any (l : List Todo) (p : Todo → Bool) (h : l.any p = true) :
    l.findIdx p < l.length := by
  induction l with
  | nil => simp at h
  | cons t ts ih =>
    by_cases ht : p t = true
    · rw [List.findIdx_cons, ht]
      simp
    · have htf : p t = false := by simpa using ht
      have hts : ts.any p = true := by simpa [htf] using h
      rw [List.findIdx_cons, htf]
      simpa using Nat.succ_lt_succ (ih hts)

/-- Positions other than the first match read back unchanged after a
toggle. -/
theorem toggleFirst_getq_other (id now : String) (l : List Todo) (i : Nat)
    (hne : i ≠ l.findIdx (fun t => t.id == id)) :
    (toggleFirst id now l).get? i = l.get? i := by
  induction l generalizing i with
  | nil => rfl
  | cons t ts ih =>
    by_cases ht : (t.id == id) = true
    · have hj : (t :: ts).findIdx (fun t => t.id == id) = 0 := by
        rw [List.findIdx_cons, ht]
        rfl
      rw [hj] at hne
      show (if (t.id == id) = true then
          { t with completed := !t.completed, updatedAt := now } :: ts
        else t :: toggleFirst id now ts).get? i = (t :: ts).get? i
      rw [if_pos ht]
      cases i with
      | zero => exact absurd rfl hne
      | succ i => rfl
    · have htf : (t.id == id) = false := by simpa using ht
      have hj : (t :: ts).findIdx (fun t => t.id == id) =
          ts.findIdx (fun t => t.id == id) + 1 := by
        rw [List.findIdx_cons, htf]
        rfl
      rw [hj] at hne
      show (if (t.id == id) = true then
          { t with completed := !t.completed, updatedAt := now } :: ts
        else t :: toggleFirst id now ts).get? i = (t :: ts).get? i
      rw [if_neg (by simp [htf])]
      cases i with
      | zero => rfl
      | succ i =>
        show (toggleFirst id now ts).get? i = ts.get? i
        exact ih i (by omega)

/-- Overwriting a position with a task of the same id leaves the id sequence
unchanged. -/
theorem set_map_id (l : List Todo) (j : Nat) (hj : j < l.length) (u : Todo)
    (hu : u.id = (l.get ⟨j, hj⟩).id) :
    (l.set j u).map Todo.id = l.map Todo.id := by
  apply List.ext_getElem
  · simp
  · intro i h1 h2
    simp only [List.getElem_map]
    by_cases hij : i = j
    · subst hij
      have hset : i < (l.set i u).length := by simpa using hj
      rw [List.getElem_set_self hset]
      exact hu
    · have hji : j ≠ i := fun hbad => hij hbad.symm
      have hi : i < l.length := by simpa using h2
      rw [List.getElem_set_ne hji]

/-- C10: toggle and edit are frame-preserving: the sequence of ids (hence the
relative order and the length) is unchanged, and every position other than
the targeted one (the first index matching the id) holds the identical task
afterwards, whether or not the persistence write succeeds. -/
theorem claimC10_frame_preserving (todos : List Todo) (slot : Option String)
    (id input now : String) (saveOk : Bool) :
    ((toggleTodo todos slot id now saveOk).todos.map Todo.id = todos.map Todo.id) ∧
    (∀ i : Nat, i ≠ todos.findIdx (fun t => t.id == id) →
      (toggleTodo todos slot id now saveOk).todos.get? i = todos.get? i) ∧
    ((saveEdit todos slot (editTodoIdx todos id) input now saveOk).todos.map Todo.id =
      todos.map Todo.id) ∧
    (∀ i : Nat, editTodoIdx todos id ≠ some i →
      (saveEdit todos slot (editTodoIdx todos id) input now saveOk).todos.get? i =
        todos.get? i) := by
  by_cases hp : todos.any (fun t => t.id == id) = true
  · have htog : (toggleTodo todos slot id now saveOk).todos = toggleFirst id now todos := by
      simp [toggleTodo, hp, saveStep_todos]
    have hidx : editTodoIdx todos id = some (todos.findIdx (fun t => t.id == id)) := by
      simp [editTodoIdx, hp]
    have hj : todos.findIdx (fun t => t.id == id) < todos.length :=
      findIdx_lt_of_any todos _ hp
    by_cases hin : jsTrim input = ""
    · have hedit : (saveEdit todos slot (editTodoIdx todos id) input now saveOk).todos =
          todos := by
        simp [saveEdit, hin]
      refine ⟨?_, ?_, ?_, ?_⟩
      · rw [htog]
        exact toggleFirst_map_id id now todos
      · intro i hne
        rw [htog]
        exact toggleFirst_getq_other id now todos i hne
      · rw [hedit]
      · intro i hne
        rw [hedit]
    · have hedit : (saveEdit todos slot (editTodoIdx todos id) input now saveOk).todos =
          todos.set (todos.findIdx (fun t => t.id == id))
            { todos.get ⟨todos.findIdx (fun t => t.id == id), hj⟩ with
              text := jsTrim input, updatedAt := now } := by
        rw [hidx]
        simp [saveEdit, hin, hj, saveStep_todos]
      refine ⟨?_, ?_, ?_, ?_⟩
      · rw [htog]
        exact toggleFirst_map_id id now todos
      · intro i hne
        rw [htog]
        exact toggleFirst_getq_other id now todos i hne
      · rw [hedit]
        exact set_map_id todos _ hj _ rfl
      · intro i hne
        rw [hidx] at hne
        have hne2 : todos.findIdx (fun t => t.id == id) ≠ i := by
          intro hbad
          exact hne (by rw [hbad])
        rw [hedit]
        exact List.get?_set_ne _ _ hne2
  · have hf : todos.any (fun t => t.id == id) = false := by simpa using hp
    have htog : (toggleTodo todos slot id now saveOk).todos = todos := by
      simp [toggleTodo, hf]
    have hidx : editTodoIdx todos id = none := by
      simp [editTodoIdx, hf]
    have hedit : (saveEdit todos slot (editTodoIdx todos id) input now saveOk).todos =
        todos := by
      rw [hidx]
      by_cases hin : jsTrim input = ""
      · simp [saveEdit, hin]
      · simp [saveEdit, hin]
    refine ⟨by rw [htog], fun i hne => by rw [htog], by rw [hedit], fun i hne => by rw [hedit]⟩

/-- C10 witness: a concrete store, toggling and editing the second task. -/
theorem claimC10_witness :
    ((toggleTodo [(⟨"a", "x", false, "c", "u"⟩ : Todo), ⟨"b", "y", false, "c", "u"⟩]
        (some "S") "b" "T" true).todos.map Todo.id =
      [(⟨"a", "x", false, "c", "u"⟩ : Todo), ⟨"b", "y", false, "c", "u"⟩].map Todo.id) ∧
    ((toggleTodo [(⟨"a", "x", false, "c", "u"⟩ : Todo), ⟨"b", "y", false, "c", "u"⟩]
        (some "S") "b" "T" true).todos.get? 0 =
      [(⟨"a", "x", false, "c", "u"⟩ : Todo), ⟨"b", "y", false, "c", "u"⟩].get? 0) ∧
    ((saveEdit [(⟨"a", "x", false, "c", "u"⟩ : Todo), ⟨"b", "y", false, "c", "u"⟩]
        (some "S")
        (editTodoIdx [(⟨"a", "x", false, "c", "u"⟩ : Todo), ⟨"b", "y", false, "c", "u"⟩] "b")
        "new text" "T" true).todos.get? 0 =
      [(⟨"a", "x", false, "c", "u"⟩ : Todo), ⟨"b", "y", false, "c", "u"⟩].get? 0) := by
  have h := claimC10_frame_preserving
    [(⟨"a", "x", false, "c", "u"⟩ : Todo), ⟨"b", "y", false, "c", "u"⟩]
    (some "S") "b" "new text" "T" true
  exact ⟨h.1, h.2.1 0 (by decide), h.2.2.2 0 (by decide)⟩
